import Mathlib

/-!
# Verification of the FunPay polling client (src/FunPayClient.ts)

Shallow embedding of the snapshot-diff polling engine of `FunPayClient`:
the cross-cycle state (`lastOrders`, `lastMessages`, `lastBalance`,
`polling`), the diff pass `checkOnce`, the bootstrap phase of
`startPolling`, `stopPolling`, and the record-building parts of
`getOrders` / `getChats` / `getBalance` (the slice loop and the quantity
regex). External collaborators (the HTTP transport and the cheerio
selector engine) enter as explicit inputs: each cycle receives the
transport outcome of every fetch, and selector extraction is an oracle
function from a raw document to the per-element fields the code reads.

JS numbers that are only compared for equality (balance, price, rating,
numeric ids) are modelled as `Int`; JS `Map` as an association list with
`Map.get` / `Map.set` / `Map.has` semantics.
-/

namespace FunPay

/-- Profile record (types/Profile.ts, built by getProfile). -/
structure IProfile where
  id : Int
  name : String
  avatarUrl : String
  rating : Int
  url : String
deriving DecidableEq, Repr

/-- Order record (types/Order.ts). -/
structure IOrder where
  date : String
  id : String
  buyer : IProfile
  status : String
  price : Int
  amount : Nat
deriving DecidableEq, Repr

/-- Chat record (types/Chat.ts); `author` is nullable in the interface. -/
structure IChat where
  id : Int
  author : Option IProfile
  date : String
deriving DecidableEq, Repr

/-- Events the engine can emit. The first five are the payloads of
`this.emit(...)` calls in FunPayClient.ts (`balanceChange`, `newOrder`,
`orderStatusChange`, `newMessage`, and the loop's `error`). The last
constructor, `engineError`, is the per-resource error event described in
the specification (resource kind plus cause); it is included so that
spec-level statements about it can be expressed — the code contains no
emit of such an event. -/
inductive Event where
  | balanceChange (old : Int) (new : Int)
  | newOrder (o : IOrder)
  | orderStatusChange (old : IOrder) (new : IOrder)
  | newMessage (m : IChat)
  | errorEvt (cause : String)
  | engineError (resource : String) (cause : String)
deriving DecidableEq, Repr

/-! ## JS Map as an association list -/

/-- `Map.prototype.get`: first binding of the key, if any. -/
def aget {κ ν : Type} [DecidableEq κ] : List (κ × ν) → κ → Option ν
  | [], _ => none
  | (k0, v0) :: rest, k => if k0 = k then some v0 else aget rest k

/-- `Map.prototype.set`: overwrite the existing binding or append. -/
def aset {κ ν : Type} [DecidableEq κ] : List (κ × ν) → κ → ν → List (κ × ν)
  | [], k, v => [(k, v)]
  | (k0, v0) :: rest, k, v =>
      if k0 = k then (k, v) :: rest else (k0, v0) :: aset rest k v

/-- `Map.prototype.has`. -/
def ahas {κ ν : Type} [DecidableEq κ] (m : List (κ × ν)) (k : κ) : Bool :=
  (aget m k).isSome

/-! ## Client polling state (the private fields of FunPayClient) -/

/-- The mutable fields of `FunPayClient` that the polling engine owns:
`lastOrders : Map<string, IOrder>`, `lastMessages : Map<number, IChat>`,
`lastBalance`, `polling`. -/
structure ClientState where
  lastOrders : List (String × IOrder)
  lastMessages : List (Int × IChat)
  lastBalance : Int
  polling : Bool
deriving DecidableEq, Repr

/-- The empty state the constructor builds: empty maps, balance 0,
not polling. -/
def initialState : ClientState :=
  { lastOrders := [], lastMessages := [], lastBalance := 0, polling := false }

/-! ## checkOnce: the diff pass (FunPayClient.ts lines 290-318) -/

/-- Balance section of `checkOnce`: emit `balanceChange` when
`this.lastBalance !== 0 && balance !== this.lastBalance`, then always
store the fetched balance. -/
def processBalance (s : ClientState) (balance : Int) : ClientState × List Event :=
  let evs :=
    if s.lastBalance ≠ 0 ∧ balance ≠ s.lastBalance then
      [Event.balanceChange s.lastBalance balance]
    else []
  ({ s with lastBalance := balance }, evs)

/-- One iteration of the orders loop of `checkOnce`: look up `o.id`,
emit `newOrder` when absent, `orderStatusChange` when the stored status
differs, and in every case `this.lastOrders.set(o.id, o)`. -/
def processOrder (s : ClientState) (o : IOrder) : ClientState × List Event :=
  let evs :=
    match aget s.lastOrders o.id with
    | none => [Event.newOrder o]
    | some prev =>
        if prev.status ≠ o.status then [Event.orderStatusChange prev o] else []
  ({ s with lastOrders := aset s.lastOrders o.id o }, evs)

/-- The `for (const o of orders)` loop of `checkOnce`. -/
def processOrders : ClientState → List IOrder → ClientState × List Event
  | s, [] => (s, [])
  | s, o :: rest =>
      let p := processOrder s o
      let q := processOrders p.1 rest
      (q.1, p.2 ++ q.2)

/-- One iteration of the messages loop of `checkOnce`: when the chat id
is not yet in `lastMessages`, emit `newMessage` and record it; a known
id does nothing. -/
def processChat (s : ClientState) (m : IChat) : ClientState × List Event :=
  if ahas s.lastMessages m.id then (s, [])
  else
    ({ s with lastMessages := aset s.lastMessages m.id m }, [Event.newMessage m])

/-- The `for (const m of messages)` loop of `checkOnce`. -/
def processChats : ClientState → List IChat → ClientState × List Event
  | s, [] => (s, [])
  | s, m :: rest =>
      let p := processChat s m
      let q := processChats p.1 rest
      (q.1, p.2 ++ q.2)

/-- `checkOnce`, parameterised by the three values the awaited calls
`getBalance()`, `getOrders()`, `getChats()` return in that cycle:
balance section, then orders loop, then messages loop; events are
emitted in that order. -/
def checkOnce (s : ClientState) (balance : Int) (orders : List IOrder)
    (chats : List IChat) : ClientState × List Event :=
  let pb := processBalance s balance
  let po := processOrders pb.1 orders
  let pc := processChats po.1 chats
  (pc.1, pb.2 ++ po.2 ++ pc.2)

/-! ## Fetch helpers (FunPayClient.ts lines 51-97)

`fetchOrders` / `fetchBalance` / `fetchChats` each wrap `timeoutFetch` in
a try/catch: a transport failure (network error, timeout abort, or a
thrown non-ok status) is logged with `console.log` and the function
returns the empty string instead of raising. The transport outcome is
an explicit input: `Except.ok html` for a successful response body,
`Except.error msg` for a failure. -/

def fetchOrders : Except String String → String
  | .ok html => html
  | .error _ => ""

def fetchBalance : Except String String → String
  | .ok html => html
  | .error _ => ""

def fetchChats : Except String String → String
  | .ok html => html
  | .error _ => ""

/-! ## Quantity parsing in getOrders (FunPayClient.ts lines 184-186)

`descText.match(/(\d+)\s*шт/i)` followed by
`amount = amountMatch ? parseInt(amountMatch[1]) : 1`.

JS regex first-match semantics for this pattern: scan positions left to
right; at a position the match is a non-empty maximal ASCII digit run,
then a whitespace run, then the two letters шт (case-insensitively).
No backtracking can help here because neither `\s` nor `ш` matches a
digit and `ш` matches no whitespace, so the greedy runs are exact. -/

/-- Split a leading ASCII digit run (JS `\d+`, greedy). -/
def takeDigits : List Char → List Char × List Char
  | [] => ([], [])
  | c :: cs =>
      if c.isDigit then
        let p := takeDigits cs
        (c :: p.1, p.2)
      else ([], c :: cs)

/-- Skip a leading whitespace run (JS `\s*`, greedy). -/
def skipSpaces : List Char → List Char
  | [] => []
  | c :: cs => if c.isWhitespace then skipSpaces cs else c :: cs

/-- The literal `шт` with the `i` flag: either case of each letter. -/
def isShtAt : List Char → Bool
  | a :: b :: _ => (a = 'ш' ∨ a = 'Ш') ∧ (b = 'т' ∨ b = 'Т')
  | _ => false

/-- `parseInt` applied to the captured digit run. -/
def digitsToNat (ds : List Char) : Nat :=
  ds.foldl (fun n c => n * 10 + (c.toNat - 48)) 0

/-- Try to match `(\d+)\s*шт` starting exactly at the head. -/
def matchAmountAt (cs : List Char) : Option Nat :=
  let p := takeDigits cs
  if p.1 = [] then none
  else if isShtAt (skipSpaces p.2) then some (digitsToNat p.1) else none

/-- First match of `(\d+)\s*шт/i` in the text, scanning left to right;
`none` when the quantity cannot be parsed. -/
def findAmount : List Char → Option Nat
  | [] => none
  | c :: cs =>
      match matchAmountAt (c :: cs) with
      | some n => some n
      | none => findAmount cs

/-- `amountMatch ? parseInt(amountMatch[1]) : 1`. -/
def parseAmount (descText : String) : Nat :=
  (findAmount descText.data).getD 1

/-! ## Record extraction (getOrders / getChats / getBalance)

Selector extraction is cheerio, an external collaborator: it is modelled
as oracle functions from the raw document to the list of per-element
field values the code reads. The only fact about cheerio any theorem
uses is stated as a hypothesis where needed: the empty document contains
no elements, so extraction on it yields the empty list. -/

/-- The fields `getOrders` reads from one `.tc-item` element. -/
structure RawOrderItem where
  date : String
  id : String
  buyerUrl : String
  status : String
  price : Int
  descText : String
deriving DecidableEq, Repr

/-- The fields `getChats` reads from one `.contact-item` element. -/
structure RawChatItem where
  dataId : Int
  date : String
deriving DecidableEq, Repr

/-- The external collaborators of the pipeline: cheerio selector
extraction per page kind, `parseFloat` of the balance element, the
per-url `getProfile` round trip, and `getChatAuthorUrl`.
`chatAuthorUrl` models the whole `getChatAuthorUrl(chatId)` round trip
(lines 111-119): it fetches the chat thread — absorbing a transport
failure into the empty document — and reads
`$('.media-body a').attr('href')` off it, which is `undefined`
(here `none`) when the thread fetch failed or the page has no author
link; the TS non-null assertion on it has no runtime effect.
`profileOf` models `getProfile` on an actual string url, which never
rejects (its fetch helper absorbs transport failures). -/
structure Extraction where
  parseBalance : String → Int
  tcItems : String → List RawOrderItem
  contactItems : String → List RawChatItem
  profileOf : String → IProfile
  chatAuthorUrl : Int → Option String

/-- The record `getOrders` pushes for one `.tc-item` (lines 177-188):
the buyer comes from `getProfile(buyerUrl)` and the amount from the
quantity regex with default 1. -/
def buildOrder (profileOf : String → IProfile) (r : RawOrderItem) : IOrder :=
  { date := r.date, id := r.id, buyer := profileOf r.buyerUrl,
    status := r.status, price := r.price, amount := parseAmount r.descText }

/-- The record `getChats` pushes for one `.contact-item`
(lines 211-218), given the author url the per-chat lookup produced. -/
def buildChat (O : Extraction) (r : RawChatItem) (url : String) : IChat :=
  { id := r.dataId,
    author := some (O.profileOf url),
    date := r.date }

/-- Auxiliary runner for the windowed loop, driven by the remaining
iteration count `lastIndex - i` so the recursion is structural: a zero
count is exactly the loop guard `i < lastIndex` failing. -/
def sliceMapGo {α β : Type} (f : α → β) (items : List α) : Nat → Nat → List β
  | _, 0 => []
  | i, n + 1 =>
      if h : i < items.length then
        f (items.get ⟨i, h⟩) :: sliceMapGo f items (i + 1) n
      else []

/-- The windowed loop shared by `getOrders` and `getChats`:
`for (let i = startIndex; i < lastIndex && i < items.length; i++)`
pushing one built record per element. -/
def sliceMap {α β : Type} (f : α → β) (items : List α) (i lastIndex : Nat) :
    List β :=
  sliceMapGo f items i (lastIndex - i)

/-- `getOrders(startIndex = 0, lastIndex = 10)` (lines 171-192). -/
def getOrders (O : Extraction) (transport : Except String String)
    (startIndex lastIndex : Nat) : List IOrder :=
  sliceMap (buildOrder O.profileOf) (O.tcItems (fetchOrders transport))
    startIndex lastIndex

/-- The `getChats` window loop (lines 210-219), driven like `sliceMapGo`
by the remaining iteration count. It can reject:
`await this.getProfile(await this.getChatAuthorUrl(chatId))` throws a
TypeError when the author url is `undefined`, because `getProfile`
dereferences its argument at line 138 (`profileUrl.replace`); the throw
aborts the loop — chats already pushed are discarded — and rejects the
whole `getChats` call. -/
def chatsGo (O : Extraction) (items : List RawChatItem) :
    Nat → Nat → Except String (List IChat)
  | _, 0 => .ok []
  | i, n + 1 =>
      if h : i < items.length then
        match O.chatAuthorUrl (items.get ⟨i, h⟩).dataId with
        | none => .error "TypeError: Cannot read properties of undefined"
        | some url =>
            match chatsGo O items (i + 1) n with
            | .ok rest => .ok (buildChat O (items.get ⟨i, h⟩) url :: rest)
            | .error e => .error e
      else .ok []

/-- `getChats(startIndex = 0, lastIndex = 10)` (lines 204-223): fails
exactly when some processed chat's author lookup came back undefined. -/
def getChats (O : Extraction) (transport : Except String String)
    (startIndex lastIndex : Nat) : Except String (List IChat) :=
  chatsGo O (O.contactItems (fetchChats transport)) startIndex
    (lastIndex - startIndex)

/-- `getBalance` (lines 161-169): parse the balance element of the
fetched page. (`parseFloat` never throws, so the catch branch is dead.) -/
def getBalance (O : Extraction) (transport : Except String String) : Int :=
  O.parseBalance (fetchBalance transport)

/-- The transport outcomes of the three fetches of one cycle. -/
structure CycleInput where
  balanceTransport : Except String String
  ordersTransport : Except String String
  chatsTransport : Except String String

/-- One steady-state loop-body iteration,
`try { await this.checkOnce() } catch (err) { this.emit('error', err) }`,
with the awaited calls of `checkOnce` expanded: the polling loop always
invokes `getOrders()` and `getChats()` with their default window 0..10.
The only rejection `checkOnce` can produce in this model is the one of
`getChats` (the fetch helpers absorb transport failures and the balance
and orders extraction cannot throw); `getChats` is awaited after the
balance and orders sections, so by the time it rejects those sections
have already mutated the snapshot and emitted their events, the
messages loop is skipped, and the loop's catch emits `'error'`. -/
def checkOnceFetched (O : Extraction) (inp : CycleInput) (s : ClientState) :
    ClientState × List Event :=
  match getChats O inp.chatsTransport 0 10 with
  | .ok chats =>
      checkOnce s (getBalance O inp.balanceTransport)
        (getOrders O inp.ordersTransport 0 10) chats
  | .error e =>
      let pb := processBalance s (getBalance O inp.balanceTransport)
      let po := processOrders pb.1 (getOrders O inp.ordersTransport 0 10)
      (po.1, pb.2 ++ po.2 ++ [Event.errorEvt e])

/-! ## startPolling bootstrap and stopPolling (lines 261-288) -/

/-- The snapshot-seeding body of the bootstrap try block:
`orders.forEach(o => lastOrders.set(o.id, o))`,
`messages.forEach(m => lastMessages.set(m.id, m))`,
`lastBalance = balance`. -/
def bootstrapSeed (s : ClientState) (orders : List IOrder)
    (chats : List IChat) (balance : Int) : ClientState :=
  { s with
    lastOrders := orders.foldl (fun m o => aset m o.id o) s.lastOrders,
    lastMessages := chats.foldl (fun m c => aset m c.id c) s.lastMessages,
    lastBalance := balance }

/-- The part of `startPolling` that runs before the while loop: the
re-entrancy guard (`if (this.polling) return`), setting the flag, and
the bootstrap `Promise.all` over the three resources. `getOrders` and
`getBalance` never reject (their fetch helpers absorb transport
failures and their extraction cannot throw), but `getChats` rejects
when a per-chat author lookup comes back undefined; then `Promise.all`
rejects before any snapshot field is assigned and the catch emits
`this.emit('error', err)`. When all three resolve, the snapshot is
seeded and nothing is emitted. -/
def startPollingBoot (O : Extraction) (inp : CycleInput) (s : ClientState) :
    ClientState × List Event :=
  if s.polling then (s, [])
  else
    let s1 := { s with polling := true }
    match getChats O inp.chatsTransport 0 10 with
    | .ok chats =>
        (bootstrapSeed s1 (getOrders O inp.ordersTransport 0 10) chats
          (getBalance O inp.balanceTransport), [])
    | .error e => (s1, [Event.errorEvt e])

/-- `stopPolling()` (lines 286-288): only clears the flag. -/
def stopPolling (s : ClientState) : ClientState :=
  { s with polling := false }

/-! ## Steady-state cycles in sequence -/

/-- The fetched data of one steady-state cycle, as consumed by
`checkOnce`. -/
structure CycleData where
  balance : Int
  orders : List IOrder
  chats : List IChat

/-- A sequence of steady-state cycles: run `checkOnce` on each cycle's
fetched data in order, concatenating the emitted events. -/
def runCycles : ClientState → List CycleData → ClientState × List Event
  | s, [] => (s, [])
  | s, c :: rest =>
      let p := checkOnce s c.balance c.orders c.chats
      let q := runCycles p.1 rest
      (q.1, p.2 ++ q.2)

/-! ## Timing of the polling loop (lines 276-288)

The while loop is `checkOnce` followed by
`await new Promise(r => setTimeout(r, interval))`. `stopPolling` only
clears the flag; nothing cancels the pending timer, so a sleep already
in progress always runs to completion before the `while (this.polling)`
guard is consulted again. The loop is modelled as a phase machine in
which a stop request is already in effect (`polling = false`) and
`elapsed` counts the milliseconds spent since the state was entered. -/

def DEFAULT_TIMEOUT : Nat := 10000

def DEFAULT_POLL_INTERVAL : Nat := 15000

inductive LoopPhase where
  | checkFlag
  | runCycle
  | sleeping (remaining : Nat)
  | idle
deriving DecidableEq, Repr

structure LoopTimerState where
  phase : LoopPhase
  polling : Bool
  elapsed : Nat
deriving DecidableEq, Repr

/-- One step of the loop: the guard consults the flag; a cycle runs and
then starts the full-interval sleep; a sleep in progress completes in
full (it is not a cancellable suspension point) and only then returns
to the guard. -/
def loopStep (interval : Nat) (s : LoopTimerState) : LoopTimerState :=
  match s.phase with
  | .checkFlag =>
      if s.polling then { s with phase := .runCycle }
      else { s with phase := .idle }
  | .runCycle => { s with phase := .sleeping interval }
  | .sleeping r => { s with phase := .checkFlag, elapsed := s.elapsed + r }
  | .idle => s

/-- Iterate `loopStep`. -/
def loopRun (interval : Nat) : Nat → LoopTimerState → LoopTimerState
  | 0, s => s
  | n + 1, s => loopRun interval n (loopStep interval s)

/-! ## Event classifiers -/

def isBalanceChange : Event → Bool
  | .balanceChange _ _ => true
  | _ => false

def isOrderEvent : Event → Bool
  | .newOrder _ => true
  | .orderStatusChange _ _ => true
  | _ => false

def isNewOrderFor (oid : String) : Event → Bool
  | .newOrder o => o.id == oid
  | _ => false

def isEngineErr : Event → Bool
  | .engineError _ _ => true
  | _ => false

/-- The order an event is about, identified by the freshly fetched
record's id — the key under which `checkOnce` looked it up and stored
it. -/
def mentionsOrder (oid : String) : Event → Bool
  | .newOrder o => o.id == oid
  | .orderStatusChange _ new => new.id == oid
  | _ => false

/-! ## Map lemmas -/

theorem aget_aset_self {κ ν : Type} [DecidableEq κ] (m : List (κ × ν))
    (k : κ) (v : ν) : aget (aset m k v) k = some v := by
  induction m with
  | nil => simp [aset, aget]
  | cons hd tl ih =>
      obtain ⟨k0, v0⟩ := hd
      by_cases h : k0 = k
      · simp [aset, h, aget]
      · simp [aset, h, aget, ih]

theorem aget_aset_ne {κ ν : Type} [DecidableEq κ] (m : List (κ × ν))
    (k k' : κ) (v : ν) (h : k' ≠ k) : aget (aset m k v) k' = aget m k' := by
  induction m with
  | nil => simp [aset, aget, Ne.symm h]
  | cons hd tl ih =>
      obtain ⟨k0, v0⟩ := hd
      by_cases h0 : k0 = k
      · subst h0
        simp [aset, aget, Ne.symm h]
      · simp [aset, h0, aget, ih]

theorem ahas_aset {κ ν : Type} [DecidableEq κ] (m : List (κ × ν))
    (k k' : κ) (v : ν) :
    ahas (aset m k v) k' = if k = k' then true else ahas m k' := by
  by_cases h : k = k'
  · subst h
    simp [ahas, aget_aset_self]
  · simp [ahas, h, aget_aset_ne m k k' v (fun hh => h hh.symm)]

/-! ## Shapes of the processing steps -/

theorem processBalance_fst (s : ClientState) (b : Int) :
    (processBalance s b).1 = { s with lastBalance := b } := rfl

theorem processBalance_snd (s : ClientState) (b : Int) :
    (processBalance s b).2 =
      if s.lastBalance ≠ 0 ∧ b ≠ s.lastBalance then
        [Event.balanceChange s.lastBalance b]
      else [] := rfl

theorem processOrder_fst (s : ClientState) (o : IOrder) :
    (processOrder s o).1 = { s with lastOrders := aset s.lastOrders o.id o } :=
  rfl

theorem processOrder_snd (s : ClientState) (o : IOrder) :
    (processOrder s o).2 =
      match aget s.lastOrders o.id with
      | none => [Event.newOrder o]
      | some prev =>
          if prev.status ≠ o.status then [Event.orderStatusChange prev o]
          else [] := rfl

theorem processChat_eq (s : ClientState) (m : IChat) :
    processChat s m =
      if ahas s.lastMessages m.id then (s, [])
      else
        ({ s with lastMessages := aset s.lastMessages m.id m },
          [Event.newMessage m]) := rfl

theorem processOrders_cons (s : ClientState) (o : IOrder) (rest : List IOrder) :
    processOrders s (o :: rest) =
      ((processOrders (processOrder s o).1 rest).1,
        (processOrder s o).2 ++ (processOrders (processOrder s o).1 rest).2) :=
  rfl

theorem processChats_cons (s : ClientState) (m : IChat) (rest : List IChat) :
    processChats s (m :: rest) =
      ((processChats (processChat s m).1 rest).1,
        (processChat s m).2 ++ (processChats (processChat s m).1 rest).2) :=
  rfl

theorem checkOnce_fst (s : ClientState) (b : Int) (os : List IOrder)
    (cs : List IChat) :
    (checkOnce s b os cs).1 =
      (processChats (processOrders (processBalance s b).1 os).1 cs).1 := rfl

theorem checkOnce_snd (s : ClientState) (b : Int) (os : List IOrder)
    (cs : List IChat) :
    (checkOnce s b os cs).2 =
      (processBalance s b).2 ++
        (processOrders (processBalance s b).1 os).2 ++
        (processChats (processOrders (processBalance s b).1 os).1 cs).2 := rfl

/-! ## Frame lemmas: each loop touches only its own snapshot field -/

theorem processOrders_lastBalance (os : List IOrder) :
    ∀ s : ClientState, (processOrders s os).1.lastBalance = s.lastBalance := by
  induction os with
  | nil => intro s; rfl
  | cons o rest ih =>
      intro s
      rw [processOrders_cons]
      exact ih (processOrder s o).1

theorem processOrders_lastMessages (os : List IOrder) :
    ∀ s : ClientState, (processOrders s os).1.lastMessages = s.lastMessages := by
  induction os with
  | nil => intro s; rfl
  | cons o rest ih =>
      intro s
      rw [processOrders_cons]
      exact ih (processOrder s o).1

theorem processOrders_polling (os : List IOrder) :
    ∀ s : ClientState, (processOrders s os).1.polling = s.polling := by
  induction os with
  | nil => intro s; rfl
  | cons o rest ih =>
      intro s
      rw [processOrders_cons]
      exact ih (processOrder s o).1

theorem processChats_lastOrders (cs : List IChat) :
    ∀ s : ClientState, (processChats s cs).1.lastOrders = s.lastOrders := by
  induction cs with
  | nil => intro s; rfl
  | cons m rest ih =>
      intro s
      rw [processChats_cons]
      rw [ih (processChat s m).1]
      rw [processChat_eq]
      by_cases h : ahas s.lastMessages m.id <;> simp [h]

theorem processChats_lastBalance (cs : List IChat) :
    ∀ s : ClientState, (processChats s cs).1.lastBalance = s.lastBalance := by
  induction cs with
  | nil => intro s; rfl
  | cons m rest ih =>
      intro s
      rw [processChats_cons]
      rw [ih (processChat s m).1]
      rw [processChat_eq]
      by_cases h : ahas s.lastMessages m.id <;> simp [h]

theorem processChats_polling (cs : List IChat) :
    ∀ s : ClientState, (processChats s cs).1.polling = s.polling := by
  induction cs with
  | nil => intro s; rfl
  | cons m rest ih =>
      intro s
      rw [processChats_cons]
      rw [ih (processChat s m).1]
      rw [processChat_eq]
      by_cases h : ahas s.lastMessages m.id <;> simp [h]

/-! ## Which events each loop can emit -/

theorem processOrder_events (s : ClientState) (o : IOrder) :
    ∀ e ∈ (processOrder s o).2, isOrderEvent e = true := by
  intro e he
  rw [processOrder_snd] at he
  cases h : aget s.lastOrders o.id with
  | none =>
      rw [h] at he
      simp at he
      subst he
      rfl
  | some prev =>
      rw [h] at he
      by_cases hs : prev.status ≠ o.status
      · simp [hs] at he
        subst he
        rfl
      · simp [hs] at he

theorem processOrders_events (os : List IOrder) :
    ∀ (s : ClientState), ∀ e ∈ (processOrders s os).2, isOrderEvent e = true := by
  induction os with
  | nil => intro s e he; simp [processOrders] at he
  | cons o rest ih =>
      intro s e he
      rw [processOrders_cons] at he
      simp only [List.mem_append] at he
      rcases he with he | he
      · exact processOrder_events s o e he
      · exact ih (processOrder s o).1 e he

theorem processChats_events (cs : List IChat) :
    ∀ (s : ClientState), ∀ e ∈ (processChats s cs).2,
      ∃ m, e = Event.newMessage m := by
  induction cs with
  | nil => intro s e he; simp [processChats] at he
  | cons m rest ih =>
      intro s e he
      rw [processChats_cons] at he
      simp only [List.mem_append] at he
      rcases he with he | he
      · rw [processChat_eq] at he
        by_cases h : ahas s.lastMessages m.id
        · simp [h] at he
        · simp [h] at he
          exact ⟨m, he⟩
      · exact ih (processChat s m).1 e he

theorem processBalance_events (s : ClientState) (b : Int) :
    ∀ e ∈ (processBalance s b).2, e = Event.balanceChange s.lastBalance b := by
  intro e he
  rw [processBalance_snd] at he
  by_cases h : s.lastBalance ≠ 0 ∧ b ≠ s.lastBalance
  · simp [h] at he
    exact he
  · simp [h] at he

/-! ## Orders snapshot lemmas -/

theorem aget_eq_none_of_ahas_false {κ ν : Type} [DecidableEq κ]
    (m : List (κ × ν)) (k : κ) (h : ahas m k = false) : aget m k = none := by
  unfold ahas at h
  cases hg : aget m k with
  | none => rfl
  | some v => rw [hg] at h; simp at h

/-- After the orders loop, an id is stored iff it was stored before or
occurs in the batch. -/
theorem processOrders_ahas (os : List IOrder) (oid : String) :
    ∀ s : ClientState,
      ahas (processOrders s os).1.lastOrders oid =
        (ahas s.lastOrders oid || os.any (fun o => o.id == oid)) := by
  induction os with
  | nil => intro s; simp [processOrders]
  | cons o rest ih =>
      intro s
      rw [processOrders_cons]
      rw [ih (processOrder s o).1]
      rw [processOrder_fst]
      by_cases h : o.id = oid
      · simp [ahas_aset, h]
      · have hb : (o.id == oid) = false := by
          simp [h]
        simp [ahas_aset, h, hb]

/-- A batch none of whose orders carries the id leaves that id's stored
entry untouched. -/
theorem processOrders_aget_frame (os : List IOrder) (oid : String)
    (hall : os.all (fun o => !(o.id == oid)) = true) :
    ∀ s : ClientState,
      aget (processOrders s os).1.lastOrders oid = aget s.lastOrders oid := by
  induction os with
  | nil => intro s; simp [processOrders]
  | cons o rest ih =>
      simp only [List.all_cons, Bool.and_eq_true, Bool.not_eq_true'] at hall
      intro s
      rw [processOrders_cons]
      rw [ih (by simpa using hall.2) (processOrder s o).1]
      rw [processOrder_fst]
      have hne : oid ≠ o.id := by
        intro hh
        rw [hh] at hall
        simp at hall
      exact aget_aset_ne s.lastOrders o.id oid o hne

/-- A stored id never produces another `newOrder` event in the orders
loop, and stays stored. -/
theorem processOrders_stored (os : List IOrder) (oid : String) :
    ∀ s : ClientState, ahas s.lastOrders oid = true →
      (processOrders s os).2.filter (isNewOrderFor oid) = [] := by
  induction os with
  | nil => intro s _; simp [processOrders]
  | cons o rest ih =>
      intro s hs
      rw [processOrders_cons]
      rw [List.filter_append]
      have h1 : (processOrder s o).2.filter (isNewOrderFor oid) = [] := by
        rw [processOrder_snd]
        cases hg : aget s.lastOrders o.id with
        | none =>
            have : o.id ≠ oid := by
              intro hh
              rw [hh] at hg
              unfold ahas at hs
              rw [hg] at hs
              simp at hs
            simp [isNewOrderFor, this]
        | some prev =>
            by_cases hd : prev.status ≠ o.status
            · simp [hd, isNewOrderFor]
            · simp [hd]
      have h2 : (processOrders (processOrder s o).1 rest).2.filter
          (isNewOrderFor oid) = [] := by
        apply ih
        rw [processOrder_fst]
        simp only [ahas_aset]
        by_cases h : o.id = oid <;> simp [h, hs]
      rw [h1, h2]
      rfl

/-- The orders loop emits the `newOrder` event for a given id at most
once: never when the id is already stored, and otherwise at most once. -/
theorem processOrders_count (os : List IOrder) (oid : String) :
    ∀ s : ClientState,
      ((processOrders s os).2.filter (isNewOrderFor oid)).length ≤
        (if ahas s.lastOrders oid = true then 0 else 1) := by
  induction os with
  | nil => intro s; simp [processOrders]
  | cons o rest ih =>
      intro s
      by_cases hs : ahas s.lastOrders oid = true
      · rw [processOrders_stored (o :: rest) oid s hs]
        simp [hs]
      · simp only [Bool.not_eq_true] at hs
        rw [processOrders_cons]
        rw [List.filter_append, List.length_append]
        by_cases h : o.id = oid
        · have hg : aget s.lastOrders o.id = none := by
            rw [h]
            exact aget_eq_none_of_ahas_false s.lastOrders oid hs
          have h1 : ((processOrder s o).2.filter (isNewOrderFor oid)).length = 1 := by
            rw [processOrder_snd, hg]
            simp [isNewOrderFor, h]
          have h2 : (processOrders (processOrder s o).1 rest).2.filter
              (isNewOrderFor oid) = [] := by
            apply processOrders_stored
            rw [processOrder_fst]
            simp [ahas_aset, h]
          rw [h1, h2]
          simp [hs]
        · have h1 : ((processOrder s o).2.filter (isNewOrderFor oid)).length = 0 := by
            rw [processOrder_snd]
            cases hg : aget s.lastOrders o.id with
            | none => simp [isNewOrderFor, h]
            | some prev =>
                by_cases hd : prev.status ≠ o.status
                · simp [hd, isNewOrderFor]
                · simp [hd]
          have hs1 : ahas (processOrder s o).1.lastOrders oid = false := by
            rw [processOrder_fst]
            simp [ahas_aset, h, hs]
          have h2 := ih (processOrder s o).1
          rw [hs1] at h2
          simp only [Bool.false_eq_true, if_false] at h2
          rw [h1]
          simp only [Nat.zero_add]
          simp [hs]
          omega

/-- Every `newOrder` event the orders loop emits for an id comes from a
batch element with that id. -/
theorem processOrders_newOrder_src (os : List IOrder) (oid : String) :
    ∀ (s : ClientState), ∀ e ∈ (processOrders s os).2,
      isNewOrderFor oid e = true → os.any (fun o => o.id == oid) = true := by
  induction os with
  | nil => intro s e he _; simp [processOrders] at he
  | cons o rest ih =>
      intro s e he hn
      rw [processOrders_cons] at he
      simp only [List.mem_append] at he
      rcases he with he | he
      · rw [processOrder_snd] at he
        cases hg : aget s.lastOrders o.id with
        | none =>
            rw [hg] at he
            simp at he
            subst he
            unfold isNewOrderFor at hn
            simp only [List.any_cons, Bool.or_eq_true]
            exact Or.inl hn
        | some prev =>
            rw [hg] at he
            by_cases hd : prev.status ≠ o.status
            · simp [hd] at he
              subst he
              simp [isNewOrderFor] at hn
            · simp [hd] at he
      · simp only [List.any_cons, Bool.or_eq_true]
        exact Or.inr (ih (processOrder s o).1 e he hn)

/-- A batch none of whose orders carries the id emits no order event
about that id. -/
theorem processOrders_mentions_frame (os : List IOrder) (oid : String)
    (hall : os.all (fun o => !(o.id == oid)) = true) :
    ∀ s : ClientState,
      (processOrders s os).2.filter (mentionsOrder oid) = [] := by
  induction os with
  | nil => intro s; simp [processOrders]
  | cons o rest ih =>
      simp only [List.all_cons, Bool.and_eq_true, Bool.not_eq_true'] at hall
      intro s
      rw [processOrders_cons]
      rw [List.filter_append]
      have h1 : (processOrder s o).2.filter (mentionsOrder oid) = [] := by
        rw [processOrder_snd]
        cases hg : aget s.lastOrders o.id with
        | none => simp [mentionsOrder, hall.1]
        | some prev =>
            by_cases hd : prev.status ≠ o.status
            · simp [hd, mentionsOrder, hall.1]
            · simp [hd]
      rw [h1, ih (by simpa using hall.2) (processOrder s o).1]
      rfl

/-! ## Messages snapshot lemmas -/

/-- After the messages loop, a chat id is stored iff it was stored
before or occurs in the batch. -/
theorem processChats_ahas (cs : List IChat) (cid : Int) :
    ∀ s : ClientState,
      ahas (processChats s cs).1.lastMessages cid =
        (ahas s.lastMessages cid || cs.any (fun m => m.id == cid)) := by
  induction cs with
  | nil => intro s; simp [processChats]
  | cons m rest ih =>
      intro s
      rw [processChats_cons]
      rw [ih (processChat s m).1]
      rw [processChat_eq]
      by_cases hh : ahas s.lastMessages m.id = true
      · by_cases h : m.id = cid
        · rw [h] at hh
          simp [hh, h]
        · have hb : (m.id == cid) = false := by simp [h]
          simp [hh, hb]
      · simp only [Bool.not_eq_true] at hh
        by_cases h : m.id = cid
        · rw [h] at hh
          simp [hh, ahas_aset, h]
        · have hb : (m.id == cid) = false := by simp [h]
          simp [hh, ahas_aset, h, hb]

/-! ## Cycle-level lemmas -/

theorem filter_eq_nil_of_pred {p : Event → Bool} {l : List Event}
    (h : ∀ e ∈ l, p e = false) : l.filter p = [] := by
  rw [List.filter_eq_nil_iff]
  intro a ha
  simp [h a ha]

/-- Filtering a cycle's events with a predicate that ignores balance and
message events sees exactly the orders-loop events. -/
theorem checkOnce_filter_orders (s : ClientState) (b : Int)
    (os : List IOrder) (cs : List IChat) (p : Event → Bool)
    (hpb : ∀ o n, p (Event.balanceChange o n) = false)
    (hpm : ∀ m, p (Event.newMessage m) = false) :
    (checkOnce s b os cs).2.filter p =
      (processOrders (processBalance s b).1 os).2.filter p := by
  rw [checkOnce_snd]
  rw [List.filter_append, List.filter_append]
  have h1 : (processBalance s b).2.filter p = [] := by
    apply filter_eq_nil_of_pred
    intro e he
    rw [processBalance_events s b e he]
    exact hpb _ _
  have h3 : (processChats (processOrders (processBalance s b).1 os).1 cs).2.filter
      p = [] := by
    apply filter_eq_nil_of_pred
    intro e he
    obtain ⟨m, hm⟩ := processChats_events cs _ e he
    rw [hm]
    exact hpm m
  rw [h1, h3]
  simp

theorem isNewOrderFor_balance (oid : String) (o n : Int) :
    isNewOrderFor oid (Event.balanceChange o n) = false := rfl

theorem isNewOrderFor_message (oid : String) (m : IChat) :
    isNewOrderFor oid (Event.newMessage m) = false := rfl

theorem mentionsOrder_balance (oid : String) (o n : Int) :
    mentionsOrder oid (Event.balanceChange o n) = false := rfl

theorem mentionsOrder_message (oid : String) (m : IChat) :
    mentionsOrder oid (Event.newMessage m) = false := rfl

/-- The orders map after a cycle holds an id iff it held it before or
the cycle's batch carried it. -/
theorem checkOnce_ahas_orders (s : ClientState) (b : Int) (os : List IOrder)
    (cs : List IChat) (oid : String) :
    ahas (checkOnce s b os cs).1.lastOrders oid =
      (ahas s.lastOrders oid || os.any (fun o => o.id == oid)) := by
  rw [checkOnce_fst]
  rw [processChats_lastOrders]
  rw [processOrders_ahas]
  rw [processBalance_fst]

/-- The messages map after a cycle holds a chat id iff it held it before
or the cycle's batch carried it. -/
theorem checkOnce_ahas_messages (s : ClientState) (b : Int) (os : List IOrder)
    (cs : List IChat) (cid : Int) :
    ahas (checkOnce s b os cs).1.lastMessages cid =
      (ahas s.lastMessages cid || cs.any (fun m => m.id == cid)) := by
  rw [checkOnce_fst]
  rw [processChats_ahas]
  rw [processOrders_lastMessages]
  rw [processBalance_fst]

/-- Per-cycle `newOrder` count for a fixed id: zero when the id is
stored, at most one otherwise. -/
theorem checkOnce_count (s : ClientState) (b : Int) (os : List IOrder)
    (cs : List IChat) (oid : String) :
    ((checkOnce s b os cs).2.filter (isNewOrderFor oid)).length ≤
      (if ahas s.lastOrders oid = true then 0 else 1) := by
  rw [checkOnce_filter_orders s b os cs (isNewOrderFor oid)
    (isNewOrderFor_balance oid) (isNewOrderFor_message oid)]
  have h := processOrders_count os oid (processBalance s b).1
  rw [processBalance_fst] at h
  exact h

/-- If a cycle emitted `newOrder` for an id, the id is stored after the
cycle. -/
theorem checkOnce_emit_stored (s : ClientState) (b : Int) (os : List IOrder)
    (cs : List IChat) (oid : String)
    (h : 1 ≤ ((checkOnce s b os cs).2.filter (isNewOrderFor oid)).length) :
    ahas (checkOnce s b os cs).1.lastOrders oid = true := by
  rw [checkOnce_filter_orders s b os cs (isNewOrderFor oid)
    (isNewOrderFor_balance oid) (isNewOrderFor_message oid)] at h
  have hne : ((processOrders (processBalance s b).1 os).2.filter
      (isNewOrderFor oid)) ≠ [] := by
    intro hnil
    rw [hnil] at h
    simp at h
  obtain ⟨e, he⟩ := List.exists_mem_of_ne_nil _ hne
  have hmem := List.mem_filter.mp he
  have hany := processOrders_newOrder_src os oid (processBalance s b).1 e
    hmem.1 hmem.2
  rw [checkOnce_ahas_orders]
  simp [hany]

/-! ## Slice loop characterization -/

theorem sliceMapGo_eq {α β : Type} (f : α → β) (items : List α) :
    ∀ (n i : Nat), sliceMapGo f items i n = ((items.drop i).take n).map f := by
  intro n
  induction n with
  | zero => intro i; simp [sliceMapGo]
  | succ n ih =>
      intro i
      by_cases h : i < items.length
      · rw [sliceMapGo, dif_pos h, ih (i + 1)]
        rw [List.drop_eq_getElem_cons h, List.take_succ_cons, List.map_cons]
        rfl
      · rw [sliceMapGo, dif_neg h]
        rw [List.drop_eq_nil_of_le (by omega)]
        simp

theorem sliceMap_eq {α β : Type} (f : α → β) (items : List α) (i j : Nat) :
    sliceMap f items i j = ((items.drop i).take (j - i)).map f := by
  unfold sliceMap
  exact sliceMapGo_eq f items (j - i) i

/-- When the chats loop resolves, its result is exactly the chats built
from the windowed items (each with its successfully looked-up author
url). -/
theorem chatsGo_ok (O : Extraction) (items : List RawChatItem) :
    ∀ (n i : Nat) (cs : List IChat), chatsGo O items i n = .ok cs →
      cs = ((items.drop i).take n).map
        (fun r => buildChat O r ((O.chatAuthorUrl r.dataId).getD "")) := by
  intro n
  induction n with
  | zero =>
      intro i cs h
      simp [chatsGo] at h
      simp [← h]
  | succ n ih =>
      intro i cs h
      by_cases hl : i < items.length
      · rw [chatsGo, dif_pos hl] at h
        cases hu : O.chatAuthorUrl (items.get ⟨i, hl⟩).dataId with
        | none => rw [hu] at h; simp at h
        | some url =>
            rw [hu] at h
            cases hr : chatsGo O items (i + 1) n with
            | error e => rw [hr] at h; simp at h
            | ok rest =>
                rw [hr] at h
                simp at h
                rw [← h, ih (i + 1) rest hr]
                rw [List.drop_eq_getElem_cons hl, List.take_succ_cons,
                  List.map_cons]
                rw [List.get_eq_getElem] at hu
                simp [hu]
      · rw [chatsGo, dif_neg hl] at h
        simp at h
        rw [List.drop_eq_nil_of_le (by omega)]
        simp [← h]

/-- A resolving `getChats` with the default window returns the chats
built from the first ten contact items, hence at most ten. -/
theorem getChats_ok (O : Extraction) (t : Except String String)
    (cs : List IChat) (h : getChats O t 0 10 = .ok cs) :
    cs = ((O.contactItems (fetchChats t)).take 10).map
      (fun r => buildChat O r ((O.chatAuthorUrl r.dataId).getD "")) ∧
    cs.length ≤ 10 := by
  unfold getChats at h
  have hs := chatsGo_ok O (O.contactItems (fetchChats t)) (10 - 0) 0 cs h
  simp only [Nat.sub_zero, List.drop_zero] at hs
  refine ⟨hs, ?_⟩
  rw [hs]
  simp only [List.length_map, List.length_take]
  omega

/-- The events the diff can emit for an observed change, as opposed to
error reports. -/
def isChangeEvent : Event → Bool
  | .balanceChange _ _ => true
  | .newOrder _ => true
  | .orderStatusChange _ _ => true
  | .newMessage _ => true
  | _ => false

/-! ## Messages: stored ids are never re-emitted -/

def isNewMessageFor (cid : Int) : Event → Bool
  | .newMessage m => m.id == cid
  | _ => false

theorem processChats_stored (cs : List IChat) (cid : Int) :
    ∀ s : ClientState, ahas s.lastMessages cid = true →
      (processChats s cs).2.filter (isNewMessageFor cid) = [] := by
  induction cs with
  | nil => intro s _; simp [processChats]
  | cons m rest ih =>
      intro s h
      rw [processChats_cons, List.filter_append]
      by_cases hh : ahas s.lastMessages m.id = true
      · have h1 : (processChat s m).2 = [] := by
          rw [processChat_eq]
          simp [hh]
        have h2 : (processChat s m).1 = s := by
          rw [processChat_eq]
          simp [hh]
        rw [h1, h2, ih s h]
        rfl
      · simp only [Bool.not_eq_true] at hh
        have hne : m.id ≠ cid := by
          intro hc
          rw [hc] at hh
          rw [h] at hh
          simp at hh
        have h1 : (processChat s m).2.filter (isNewMessageFor cid) = [] := by
          rw [processChat_eq]
          simp [hh, isNewMessageFor, hne]
        have hs1 : ahas (processChat s m).1.lastMessages cid = true := by
          rw [processChat_eq]
          simp only [hh, Bool.false_eq_true, if_false]
          rw [ahas_aset]
          simp [hne, h]
        rw [h1, ih _ hs1]
        rfl

/-! ## More cycle-level filter reductions -/

/-- Filtering a cycle's events with a predicate that ignores order and
message events sees exactly the balance events. -/
theorem checkOnce_filter_balance (s : ClientState) (b : Int)
    (os : List IOrder) (cs : List IChat) (p : Event → Bool)
    (hpo : ∀ e, isOrderEvent e = true → p e = false)
    (hpm : ∀ m, p (Event.newMessage m) = false) :
    (checkOnce s b os cs).2.filter p = (processBalance s b).2.filter p := by
  rw [checkOnce_snd]
  rw [List.filter_append, List.filter_append]
  have h2 : (processOrders (processBalance s b).1 os).2.filter p = [] := by
    apply filter_eq_nil_of_pred
    intro e he
    exact hpo e (processOrders_events os _ e he)
  have h3 : (processChats (processOrders (processBalance s b).1 os).1 cs).2.filter
      p = [] := by
    apply filter_eq_nil_of_pred
    intro e he
    obtain ⟨m, hm⟩ := processChats_events cs _ e he
    rw [hm]
    exact hpm m
  rw [h2, h3]
  simp

/-- Filtering a cycle's events with a predicate that ignores balance and
order events sees exactly the message events. -/
theorem checkOnce_filter_chats (s : ClientState) (b : Int)
    (os : List IOrder) (cs : List IChat) (p : Event → Bool)
    (hpb : ∀ o n, p (Event.balanceChange o n) = false)
    (hpo : ∀ e, isOrderEvent e = true → p e = false) :
    (checkOnce s b os cs).2.filter p =
      (processChats (processOrders (processBalance s b).1 os).1 cs).2.filter p := by
  rw [checkOnce_snd]
  rw [List.filter_append, List.filter_append]
  have h1 : (processBalance s b).2.filter p = [] := by
    apply filter_eq_nil_of_pred
    intro e he
    rw [processBalance_events s b e he]
    exact hpb _ _
  have h2 : (processOrders (processBalance s b).1 os).2.filter p = [] := by
    apply filter_eq_nil_of_pred
    intro e he
    exact hpo e (processOrders_events os _ e he)
  rw [h1, h2]
  simp

/-- No cycle ever emits the spec's per-resource `engineError` event:
the code contains no such emit. -/
theorem checkOnce_no_engineError (s : ClientState) (b : Int)
    (os : List IOrder) (cs : List IChat) :
    (checkOnce s b os cs).2.filter isEngineErr = [] := by
  rw [checkOnce_filter_balance s b os cs isEngineErr]
  · apply filter_eq_nil_of_pred
    intro e he
    rw [processBalance_events s b e he]
    rfl
  · intro e he
    cases e <;> simp [isOrderEvent] at he ⊢ <;> rfl
  · intro m
    rfl

/-! ## Bootstrap fold lemmas -/

theorem foldl_aset_mono {κ ν : Type} [DecidableEq κ] (key : ν → κ)
    (xs : List ν) : ∀ (m : List (κ × ν)) (k : κ), ahas m k = true →
      ahas (xs.foldl (fun acc x => aset acc (key x) x) m) k = true := by
  induction xs with
  | nil => intro m k h; simpa using h
  | cons x rest ih =>
      intro m k h
      simp only [List.foldl_cons]
      apply ih
      rw [ahas_aset]
      by_cases hk : key x = k <;> simp [hk, h]

theorem foldl_aset_mem {κ ν : Type} [DecidableEq κ] (key : ν → κ)
    (xs : List ν) : ∀ (m : List (κ × ν)), ∀ x ∈ xs,
      ahas (xs.foldl (fun acc x => aset acc (key x) x) m) (key x) = true := by
  induction xs with
  | nil => intro m x h; simp at h
  | cons y rest ih =>
      intro m x h
      simp only [List.foldl_cons]
      rcases List.mem_cons.mp h with h | h
      · subst h
        apply foldl_aset_mono
        rw [ahas_aset]
        simp
      · exact ih _ x h

/-! ## Cycle sequences -/

theorem runCycles_cons (s : ClientState) (c : CycleData)
    (rest : List CycleData) :
    runCycles s (c :: rest) =
      ((runCycles (checkOnce s c.balance c.orders c.chats).1 rest).1,
        (checkOnce s c.balance c.orders c.chats).2 ++
          (runCycles (checkOnce s c.balance c.orders c.chats).1 rest).2) := rfl

theorem isBalanceChange_of_orderEvent (e : Event)
    (h : isOrderEvent e = true) : isBalanceChange e = false := by
  cases e <;> simp [isOrderEvent] at h <;> rfl

/-! ## Concrete fixtures for witnesses and counterexamples -/

def wProfile : IProfile :=
  { id := 7, name := "buyer", avatarUrl := "a", rating := 5, url := "u" }

def wOrder1 : IOrder :=
  { date := "d1", id := "1", buyer := wProfile, status := "paid",
    price := 10, amount := 1 }

def wOrder2 : IOrder :=
  { date := "d2", id := "2", buyer := wProfile, status := "new",
    price := 20, amount := 1 }

def wChat : IChat := { id := 5, author := some wProfile, date := "t" }

/-- A snapshot as of the spec's scenario C/D: orders "1" and "2" stored,
one known chat, balance 100, loop running. -/
def snapState : ClientState :=
  { lastOrders := [("1", wOrder1), ("2", wOrder2)],
    lastMessages := [(5, wChat)], lastBalance := 100, polling := true }

/-- Concrete extraction oracles: the pages in play extract to nothing
(in particular the empty document, as with cheerio, has no elements)
and the balance page reads 100. With no contact items the author
lookup is never consulted. -/
def wExtraction : Extraction :=
  { parseBalance := fun _ => 100,
    tcItems := fun _ => [],
    contactItems := fun _ => [],
    profileOf := fun _ => wProfile,
    chatAuthorUrl := fun _ => none }

/-- One chat row on the chat list page. -/
def wChatItem : RawChatItem := { dataId := 5, date := "t" }

/-- Extraction oracles for the bootstrap counterexample: the chat list
page has one contact item, and every per-chat thread lookup comes back
undefined (as when the thread fetch fails and the empty document has no
`.media-body a` link). -/
def cexBootExtraction : Extraction :=
  { parseBalance := fun _ => 100,
    tcItems := fun _ => [],
    contactItems := fun doc => if doc = "" then [] else [wChatItem],
    profileOf := fun _ => wProfile,
    chatAuthorUrl := fun _ => none }

/-- A cycle in which all three top-level fetches succeed. -/
def okInput : CycleInput :=
  { balanceTransport := .ok "B",
    ordersTransport := .ok "O",
    chatsTransport := .ok "C" }

/-- A cycle in which only the orders fetch fails with a transport error. -/
def cexInput : CycleInput :=
  { balanceTransport := .ok "B",
    ordersTransport := .error "TransportError: network timeout",
    chatsTransport := .ok "C" }

/-- A bootstrap in which every fetch fails. -/
def wBootInput : CycleInput :=
  { balanceTransport := .error "HTTP 500",
    ordersTransport := .error "HTTP 500",
    chatsTransport := .error "HTTP 500" }

/-! ## Claims -/

/-- Claim C2: for every sequence of polling cycles, the `newOrder` event
is emitted at most once per order id — and never when the id is already
stored in the orders snapshot at the start of the sequence (whether put
there by bootstrap or by an earlier cycle), since no cycle ever removes
a stored id. -/
theorem claim_newOrder_once (cycles : List CycleData) (oid : String) :
    ∀ s : ClientState,
      ((runCycles s cycles).2.filter (isNewOrderFor oid)).length ≤
        (if ahas s.lastOrders oid = true then 0 else 1) := by
  induction cycles with
  | nil => intro s; simp [runCycles]
  | cons c rest ih =>
      intro s
      rw [runCycles_cons]
      simp only [List.filter_append, List.length_append]
      have h1 := checkOnce_count s c.balance c.orders c.chats oid
      have h2 := ih (checkOnce s c.balance c.orders c.chats).1
      by_cases hs : ahas s.lastOrders oid = true
      · rw [if_pos hs] at h1 ⊢
        have hstored : ahas (checkOnce s c.balance c.orders
            c.chats).1.lastOrders oid = true := by
          rw [checkOnce_ahas_orders]
          simp [hs]
        rw [if_pos hstored] at h2
        omega
      · rw [if_neg hs] at h1 ⊢
        by_cases hemit : 1 ≤ ((checkOnce s c.balance c.orders
            c.chats).2.filter (isNewOrderFor oid)).length
        · have hstored := checkOnce_emit_stored s c.balance c.orders
            c.chats oid hemit
          rw [if_pos hstored] at h2
          omega
        · have hb : (if ahas (checkOnce s c.balance c.orders
              c.chats).1.lastOrders oid = true then 0 else 1) ≤ 1 := by
            by_cases hx : ahas (checkOnce s c.balance c.orders
              c.chats).1.lastOrders oid = true <;> simp [hx]
          omega

/-- Claim C3: in every cycle a `balanceChange` event is emitted iff the
stored balance is non-zero and the fetched balance differs from it — in
particular the first non-zero balance seen while the stored balance is
the zero sentinel emits nothing — and the stored balance is overwritten
with the fetched value whether or not an event was emitted. -/
theorem claim_balance_diff (s : ClientState) (b : Int) (os : List IOrder)
    (cs : List IChat) :
    (checkOnce s b os cs).1.lastBalance = b ∧
    (checkOnce s b os cs).2.filter isBalanceChange =
      (if s.lastBalance ≠ 0 ∧ b ≠ s.lastBalance then
        [Event.balanceChange s.lastBalance b]
      else []) := by
  constructor
  · rw [checkOnce_fst, processChats_lastBalance, processOrders_lastBalance]
    rfl
  · rw [checkOnce_filter_balance s b os cs isBalanceChange
      isBalanceChange_of_orderEvent (fun m => rfl)]
    rw [processBalance_snd]
    by_cases h : s.lastBalance ≠ 0 ∧ b ≠ s.lastBalance
    · simp [h, isBalanceChange]
    · simp [h]

/-- Claim C7: for a fetched order, a stored order with the same id and
an equal status yields no order event; a stored order with a different
status yields exactly one `orderStatusChange` carrying the old and new
records; an absent id yields exactly one `newOrder`; and in all cases
the stored order is overwritten with the freshly fetched one. -/
theorem claim_order_diff (s : ClientState) (b : Int) (cs : List IChat)
    (o : IOrder) :
    aget (checkOnce s b [o] cs).1.lastOrders o.id = some o ∧
    (checkOnce s b [o] cs).2.filter isOrderEvent =
      (match aget s.lastOrders o.id with
       | none => [Event.newOrder o]
       | some prev =>
           if prev.status ≠ o.status then [Event.orderStatusChange prev o]
           else []) := by
  constructor
  · rw [checkOnce_fst, processChats_lastOrders]
    have h1 : (processOrders (processBalance s b).1 [o]).1 =
        (processOrder (processBalance s b).1 o).1 := by
      rw [processOrders_cons]
      rfl
    rw [h1, processOrder_fst]
    exact aget_aset_self s.lastOrders o.id o
  · rw [checkOnce_filter_orders s b [o] cs isOrderEvent
      (fun a c => rfl) (fun m => rfl)]
    have h2 : (processOrders (processBalance s b).1 [o]).2 =
        (processOrder (processBalance s b).1 o).2 := by
      rw [processOrders_cons]
      simp [processOrders]
    rw [h2, processOrder_snd]
    have h3 : (processBalance s b).1.lastOrders = s.lastOrders := rfl
    rw [h3]
    cases hg : aget s.lastOrders o.id with
    | none => simp [isOrderEvent]
    | some prev =>
        by_cases hd : prev.status ≠ o.status
        · simp [hd, isOrderEvent]
        · simp [hd]

/-- Claim C9: with the default window [0, 10) — which is what the
polling loop always passes — `getOrders` returns exactly the records
built from the first ten extracted elements, and a resolving `getChats`
likewise; both yield at most ten records per fetch, so later elements
of the page are never observed by the diff, and the loop body consumes
exactly these default-window calls. -/
theorem claim_default_window (O : Extraction) (t u : Except String String)
    (inp : CycleInput) (s : ClientState) :
    getOrders O t 0 10 =
      ((O.tcItems (fetchOrders t)).take 10).map (buildOrder O.profileOf) ∧
    (getOrders O t 0 10).length ≤ 10 ∧
    (∀ cs, getChats O u 0 10 = .ok cs →
      cs = ((O.contactItems (fetchChats u)).take 10).map
        (fun r => buildChat O r ((O.chatAuthorUrl r.dataId).getD "")) ∧
      cs.length ≤ 10) ∧
    (∀ cs, getChats O inp.chatsTransport 0 10 = .ok cs →
      checkOnceFetched O inp s =
        checkOnce s (getBalance O inp.balanceTransport)
          (getOrders O inp.ordersTransport 0 10) cs) := by
  have h1 : getOrders O t 0 10 =
      ((O.tcItems (fetchOrders t)).take 10).map (buildOrder O.profileOf) := by
    unfold getOrders
    rw [sliceMap_eq]
    simp
  refine ⟨h1, ?_, fun cs hcs => getChats_ok O u cs hcs, fun cs hcs => ?_⟩
  · rw [h1]
    simp only [List.length_map, List.length_take]
    omega
  · unfold checkOnceFetched
    rw [hcs]

/-- Claim C6: no cycle removes a key from the orders or messages
snapshot — after a cycle an id is stored iff it was stored before or the
cycle's batch carried it — and an order id absent from the fetched batch
keeps its stored entry unchanged and produces no event about that
order. -/
theorem claim_no_removal (s : ClientState) (b : Int) (os : List IOrder)
    (cs : List IChat) (oid : String) (cid : Int) :
    ahas (checkOnce s b os cs).1.lastOrders oid =
      (ahas s.lastOrders oid || os.any (fun o => o.id == oid)) ∧
    ahas (checkOnce s b os cs).1.lastMessages cid =
      (ahas s.lastMessages cid || cs.any (fun m => m.id == cid)) ∧
    (os.all (fun o => !(o.id == oid)) = true →
      aget (checkOnce s b os cs).1.lastOrders oid = aget s.lastOrders oid ∧
      (checkOnce s b os cs).2.filter (mentionsOrder oid) = []) := by
  refine ⟨checkOnce_ahas_orders s b os cs oid,
    checkOnce_ahas_messages s b os cs cid, ?_⟩
  intro hall
  constructor
  · rw [checkOnce_fst, processChats_lastOrders,
      processOrders_aget_frame os oid hall]
    rfl
  · rw [checkOnce_filter_orders s b os cs (mentionsOrder oid)
      (mentionsOrder_balance oid) (mentionsOrder_message oid)]
    exact processOrders_mentions_frame os oid hall _

/-- Claim C6 witness: an entirely empty batch against the stored
snapshot of orders "1"/"2" leaves order "1" untouched and emits nothing
about it. -/
theorem claim_no_removal_witness :
    aget (checkOnce snapState 100 [] []).1.lastOrders "1" =
      aget snapState.lastOrders "1" ∧
    (checkOnce snapState 100 [] []).2.filter (mentionsOrder "1") = [] :=
  (claim_no_removal snapState 100 [] [] "1" 5).2.2 (by decide)

/-- Claim C8: every record produced by the `getOrders` loop is built
from one extracted element, and when the quantity regex finds no match
in that element's description text the record's amount defaults to 1,
a positive integer. -/
theorem claim_amount_default (p : String → IProfile)
    (items : List RawOrderItem) (i j : Nat) (o : IOrder)
    (ho : o ∈ sliceMap (buildOrder p) items i j) :
    ∃ r, r ∈ items ∧ o = buildOrder p r ∧
      (findAmount r.descText.data = none → o.amount = 1 ∧ 0 < o.amount) := by
  rw [sliceMap_eq] at ho
  obtain ⟨r, hr, hfr⟩ := List.mem_map.mp ho
  refine ⟨r, List.mem_of_mem_drop (List.mem_of_mem_take hr), hfr.symm, ?_⟩
  intro hnone
  have ha : o.amount = 1 := by
    rw [← hfr]
    simp [buildOrder, parseAmount, hnone]
  exact ⟨ha, by rw [ha]; omega⟩

/-- An order row whose description carries no parseable quantity. -/
def wItemNoQty : RawOrderItem :=
  { date := "d", id := "9", buyerUrl := "u", status := "new", price := 3,
    descText := "Brawl Pass" }

/-- Claim C8 witness: the order built from the quantity-less row has
amount 1. -/
theorem claim_amount_default_witness :
    ∃ r, r ∈ [wItemNoQty] ∧
      buildOrder (fun _ => wProfile) wItemNoQty =
        buildOrder (fun _ => wProfile) r ∧
      (findAmount r.descText.data = none →
        (buildOrder (fun _ => wProfile) wItemNoQty).amount = 1 ∧
        0 < (buildOrder (fun _ => wProfile) wItemNoQty).amount) :=
  claim_amount_default (fun _ => wProfile) [wItemNoQty] 0 10
    (buildOrder (fun _ => wProfile) wItemNoQty) (by decide)

/-- Claim C4 counterexample: a bootstrap during which a fetch error
occurs is not always silent. With one chat row on the chat list and
every per-chat thread fetch failing (so the empty thread document has
no author link and `getChatAuthorUrl` returns undefined), `getChats`
rejects via `getProfile(undefined)`, `Promise.all` rejects, and the
bootstrap catch emits an `'error'` event — an event is emitted,
contrary to the claim's "no event of any kind". -/
theorem claim_bootstrap_silent_cex :
    (startPollingBoot cexBootExtraction okInput initialState).2 =
      [Event.errorEvt "TypeError: Cannot read properties of undefined"] ∧
    ¬ (startPollingBoot cexBootExtraction okInput initialState).2 = [] := by
  constructor
  · decide
  · decide

/-- Claim C4 (amended): the bootstrap run at the first `startPolling`
populates the snapshot maps and the stored balance directly and emits
no change event of any kind; a fetch error on the chat-list page itself
is swallowed silently (it yields an empty document, hence no contact
items and a resolving `getChats`), as are orders/balance-page fetch
errors, but a failing per-chat thread fetch makes `getChats` reject via
`getProfile(undefined)`, in which case nothing is seeded and the
bootstrap catch emits one generic `'error'` event instead of staying
silent; nothing is raised to the caller and normal cycles still begin
(`polling = true`) in every case. -/
theorem claim_bootstrap_best_effort (O : Extraction) (inp : CycleInput)
    (s : ClientState) (h : s.polling = false) :
    (startPollingBoot O inp s).1.polling = true ∧
    (startPollingBoot O inp s).2.filter isChangeEvent = [] ∧
    (∀ msg, inp.chatsTransport = .error msg → O.contactItems "" = [] →
      (startPollingBoot O inp s).2 = []) ∧
    (∀ cs, getChats O inp.chatsTransport 0 10 = .ok cs →
      (startPollingBoot O inp s).2 = [] ∧
      (startPollingBoot O inp s).1.lastBalance =
        getBalance O inp.balanceTransport ∧
      (getOrders O inp.ordersTransport 0 10).all
        (fun o => ahas (startPollingBoot O inp s).1.lastOrders o.id) = true ∧
      cs.all
        (fun m => ahas (startPollingBoot O inp s).1.lastMessages m.id) =
        true) ∧
    (∀ e, getChats O inp.chatsTransport 0 10 = .error e →
      (startPollingBoot O inp s).2 = [Event.errorEvt e] ∧
      (startPollingBoot O inp s).1 = { s with polling := true }) := by
  have hno : ¬ (s.polling = true) := by
    rw [h]
    simp
  cases hg : getChats O inp.chatsTransport 0 10 with
  | ok chats =>
      have hb : startPollingBoot O inp s =
          (bootstrapSeed { s with polling := true }
            (getOrders O inp.ordersTransport 0 10) chats
            (getBalance O inp.balanceTransport), []) := by
        unfold startPollingBoot
        rw [if_neg hno, hg]
      refine ⟨by rw [hb]; rfl, by rw [hb]; rfl,
        fun msg hmsg hemp => by rw [hb],
        fun cs hcs => ?_, fun e he => ?_⟩
      · injection hcs with hcc
        subst hcc
        rw [hb]
        refine ⟨rfl, rfl, ?_, ?_⟩
        · rw [List.all_eq_true]
          intro o ho
          exact foldl_aset_mem (fun o => o.id)
            (getOrders O inp.ordersTransport 0 10) _ o ho
        · rw [List.all_eq_true]
          intro m hm
          exact foldl_aset_mem (fun m => m.id) chats _ m hm
      · simp at he
  | error e0 =>
      have hb : startPollingBoot O inp s =
          ({ s with polling := true }, [Event.errorEvt e0]) := by
        unfold startPollingBoot
        rw [if_neg hno, hg]
      refine ⟨by rw [hb], by rw [hb]; rfl, fun msg hmsg hemp => ?_,
        fun cs hcs => ?_, fun e he => ?_⟩
      · exfalso
        have hok : getChats O inp.chatsTransport 0 10 = .ok [] := by
          unfold getChats
          rw [hmsg]
          have hdoc : fetchChats (Except.error msg) = "" := rfl
          rw [hdoc, hemp]
          rfl
        rw [hg] at hok
        simp at hok
      · simp at hcs
      · injection he with hee
        subst hee
        exact ⟨by rw [hb], by rw [hb]⟩

/-- Claim C4 (amended) witness: a bootstrap in which all three
top-level fetches fail emits nothing, stays seeded from the empty
documents, and leaves the loop running. -/
theorem claim_bootstrap_best_effort_witness :
    (startPollingBoot wExtraction wBootInput initialState).1.polling =
      true ∧
    (startPollingBoot wExtraction wBootInput initialState).2 = [] :=
  ⟨(claim_bootstrap_best_effort wExtraction wBootInput initialState rfl).1,
    (claim_bootstrap_best_effort wExtraction wBootInput
      initialState rfl).2.2.1 "HTTP 500" rfl rfl⟩

/-- Claim C10: `stopPolling` only clears the running flag and leaves all
three snapshot fields unchanged; a subsequent `startPolling` bootstrap
does not reset them (its fold only adds entries), so ids seen before the
stop are still stored after the restart and a following cycle emits no
`newOrder` or `newMessage` for them, whatever its batches are. -/
theorem claim_stop_restart (O : Extraction) (inp : CycleInput)
    (s : ClientState) (oid : String) (cid : Int) (b : Int)
    (os : List IOrder) (cs : List IChat)
    (ho : ahas s.lastOrders oid = true)
    (hm : ahas s.lastMessages cid = true) :
    (stopPolling s).lastOrders = s.lastOrders ∧
    (stopPolling s).lastMessages = s.lastMessages ∧
    (stopPolling s).lastBalance = s.lastBalance ∧
    (stopPolling s).polling = false ∧
    ahas (startPollingBoot O inp (stopPolling s)).1.lastOrders oid = true ∧
    ahas (startPollingBoot O inp (stopPolling s)).1.lastMessages cid = true ∧
    (checkOnce (startPollingBoot O inp (stopPolling s)).1 b os cs).2.filter
      (isNewOrderFor oid) = [] ∧
    (checkOnce (startPollingBoot O inp (stopPolling s)).1 b os cs).2.filter
      (isNewMessageFor cid) = [] := by
  have hneg : ¬ ((stopPolling s).polling = true) := by
    simp [stopPolling]
  have hOrd : ahas (startPollingBoot O inp
      (stopPolling s)).1.lastOrders oid = true := by
    cases hg : getChats O inp.chatsTransport 0 10 with
    | ok chats =>
        have hb : startPollingBoot O inp (stopPolling s) =
            (bootstrapSeed { stopPolling s with polling := true }
              (getOrders O inp.ordersTransport 0 10) chats
              (getBalance O inp.balanceTransport), []) := by
          unfold startPollingBoot
          rw [if_neg hneg, hg]
        rw [hb]
        exact foldl_aset_mono (fun o => o.id)
          (getOrders O inp.ordersTransport 0 10) s.lastOrders oid ho
    | error e =>
        have hb : startPollingBoot O inp (stopPolling s) =
            ({ stopPolling s with polling := true },
              [Event.errorEvt e]) := by
          unfold startPollingBoot
          rw [if_neg hneg, hg]
        rw [hb]
        exact ho
  have hMsg : ahas (startPollingBoot O inp
      (stopPolling s)).1.lastMessages cid = true := by
    cases hg : getChats O inp.chatsTransport 0 10 with
    | ok chats =>
        have hb : startPollingBoot O inp (stopPolling s) =
            (bootstrapSeed { stopPolling s with polling := true }
              (getOrders O inp.ordersTransport 0 10) chats
              (getBalance O inp.balanceTransport), []) := by
          unfold startPollingBoot
          rw [if_neg hneg, hg]
        rw [hb]
        exact foldl_aset_mono (fun m => m.id) chats s.lastMessages cid hm
    | error e =>
        have hb : startPollingBoot O inp (stopPolling s) =
            ({ stopPolling s with polling := true },
              [Event.errorEvt e]) := by
          unfold startPollingBoot
          rw [if_neg hneg, hg]
        rw [hb]
        exact hm
  have hOrdFilter : (checkOnce (startPollingBoot O inp
      (stopPolling s)).1 b os cs).2.filter (isNewOrderFor oid) = [] := by
    rw [checkOnce_filter_orders _ _ _ _ (isNewOrderFor oid)
      (isNewOrderFor_balance oid) (isNewOrderFor_message oid)]
    exact processOrders_stored os oid _ hOrd
  have hMsgFilter : (checkOnce (startPollingBoot O inp
      (stopPolling s)).1 b os cs).2.filter (isNewMessageFor cid) = [] := by
    rw [checkOnce_filter_chats _ _ _ _ (isNewMessageFor cid)
      (fun a c => rfl)
      (fun e he => by cases e <;> simp [isOrderEvent] at he <;> rfl)]
    apply processChats_stored
    rw [processOrders_lastMessages]
    exact hMsg
  exact ⟨rfl, rfl, rfl, rfl, hOrd, hMsg, hOrdFilter, hMsgFilter⟩

/-- Claim C10 witness: stop and restart over the stored snapshot keeps
order "1" and chat 5, and the next cycle re-emits neither. -/
theorem claim_stop_restart_witness :
    (stopPolling snapState).lastOrders = snapState.lastOrders ∧
    (stopPolling snapState).lastMessages = snapState.lastMessages ∧
    (stopPolling snapState).lastBalance = snapState.lastBalance ∧
    (stopPolling snapState).polling = false ∧
    ahas (startPollingBoot wExtraction wBootInput
      (stopPolling snapState)).1.lastOrders "1" = true ∧
    ahas (startPollingBoot wExtraction wBootInput
      (stopPolling snapState)).1.lastMessages 5 = true ∧
    (checkOnce (startPollingBoot wExtraction wBootInput
      (stopPolling snapState)).1 100 [] []).2.filter
      (isNewOrderFor "1") = [] ∧
    (checkOnce (startPollingBoot wExtraction wBootInput
      (stopPolling snapState)).1 100 [] []).2.filter
      (isNewMessageFor 5) = [] :=
  claim_stop_restart wExtraction wBootInput snapState "1" 5 100 [] []
    (by decide) (by decide)

/-- Claim C1 counterexample: in the scenario the claim describes — a
snapshot holding orders "1"/"2" and a cycle whose Orders fetch fails
with a transport error while Balance and Chats succeed — the cycle
emits no event at all: in particular no `EngineError` event carrying
resource "orders", contrary to the claim. (The snapshot is indeed left
unchanged.) -/
theorem claim_engine_error_cex :
    (checkOnceFetched wExtraction cexInput snapState).2 = [] ∧
    (checkOnceFetched wExtraction cexInput snapState).1.lastOrders =
      snapState.lastOrders := by
  constructor
  · decide
  · decide

/-- Claim C1 (amended): a transport error on the Orders fetch is caught
inside the fetch helper, logged to the console only, and converted into
the empty document, whose extraction is the empty batch; the cycle
therefore emits no `EngineError` event (no cycle ever does) and no
order event, leaves the stored order snapshot and the running flag
untouched, and Balance and Chats are still processed: when `getChats`
resolves the cycle behaves exactly as one with an empty orders batch,
and even when it rejects the balance section has already run (the
stored balance is overwritten and its diff event emitted) before the
loop's catch reports the chats error. -/
theorem claim_fetch_error_isolated (O : Extraction) (inp : CycleInput)
    (s : ClientState) (msg : String) (hext : O.tcItems "" = [])
    (herr : inp.ordersTransport = .error msg) :
    (∀ cs, getChats O inp.chatsTransport 0 10 = .ok cs →
      checkOnceFetched O inp s =
        checkOnce s (getBalance O inp.balanceTransport) [] cs) ∧
    (∀ e, getChats O inp.chatsTransport 0 10 = .error e →
      (checkOnceFetched O inp s).2 =
        (processBalance s (getBalance O inp.balanceTransport)).2 ++
          [Event.errorEvt e]) ∧
    (checkOnceFetched O inp s).1.lastOrders = s.lastOrders ∧
    (checkOnceFetched O inp s).1.polling = s.polling ∧
    (checkOnceFetched O inp s).1.lastBalance =
      getBalance O inp.balanceTransport ∧
    (checkOnceFetched O inp s).2.filter isEngineErr = [] ∧
    (checkOnceFetched O inp s).2.filter isOrderEvent = [] := by
  have hords : getOrders O inp.ordersTransport 0 10 = [] := by
    unfold getOrders
    rw [herr]
    have hdoc : fetchOrders (Except.error msg) = "" := rfl
    rw [hdoc, hext]
    rfl
  cases hg : getChats O inp.chatsTransport 0 10 with
  | ok chats =>
      have heq : checkOnceFetched O inp s =
          checkOnce s (getBalance O inp.balanceTransport) [] chats := by
        unfold checkOnceFetched
        rw [hg, hords]
      refine ⟨fun cs hcs => ?_, fun e he => ?_, ?_, ?_, ?_, ?_, ?_⟩
      · injection hcs with hcc
        subst hcc
        exact heq
      · simp at he
      · rw [heq, checkOnce_fst, processChats_lastOrders]
        rfl
      · rw [heq, checkOnce_fst, processChats_polling, processOrders_polling]
        rfl
      · rw [heq, checkOnce_fst, processChats_lastBalance,
          processOrders_lastBalance]
        rfl
      · rw [heq]
        exact checkOnce_no_engineError s _ [] _
      · rw [heq, checkOnce_filter_orders _ _ _ _ isOrderEvent
          (fun a c => rfl) (fun m => rfl)]
        rfl
  | error e0 =>
      have heq : checkOnceFetched O inp s =
          ((processBalance s (getBalance O inp.balanceTransport)).1,
            (processBalance s (getBalance O inp.balanceTransport)).2 ++
              [] ++ [Event.errorEvt e0]) := by
        unfold checkOnceFetched
        rw [hg, hords]
        rfl
      have h1 : (processBalance s
          (getBalance O inp.balanceTransport)).2.filter isEngineErr = [] := by
        apply filter_eq_nil_of_pred
        intro ev hev
        rw [processBalance_events s _ ev hev]
        rfl
      have h2 : (processBalance s
          (getBalance O inp.balanceTransport)).2.filter isOrderEvent = [] := by
        apply filter_eq_nil_of_pred
        intro ev hev
        rw [processBalance_events s _ ev hev]
        rfl
      refine ⟨fun cs hcs => ?_, fun e he => ?_, ?_, ?_, ?_, ?_, ?_⟩
      · simp at hcs
      · injection he with hee
        subst hee
        rw [heq]
        simp
      · rw [heq]
        rfl
      · rw [heq]
        rfl
      · rw [heq]
        rfl
      · rw [heq, List.filter_append, List.filter_append, h1]
        rfl
      · rw [heq, List.filter_append, List.filter_append, h2]
        rfl

/-- Claim C1 (amended) witness: the concrete failing-orders cycle of the
counterexample scenario, via the amended theorem. -/
theorem claim_fetch_error_isolated_witness :
    (∀ cs, getChats wExtraction cexInput.chatsTransport 0 10 = .ok cs →
      checkOnceFetched wExtraction cexInput snapState =
        checkOnce snapState
          (getBalance wExtraction cexInput.balanceTransport) [] cs) ∧
    (∀ e, getChats wExtraction cexInput.chatsTransport 0 10 = .error e →
      (checkOnceFetched wExtraction cexInput snapState).2 =
        (processBalance snapState
          (getBalance wExtraction cexInput.balanceTransport)).2 ++
          [Event.errorEvt e]) ∧
    (checkOnceFetched wExtraction cexInput snapState).1.lastOrders =
      snapState.lastOrders ∧
    (checkOnceFetched wExtraction cexInput snapState).1.polling =
      snapState.polling ∧
    (checkOnceFetched wExtraction cexInput snapState).1.lastBalance =
      getBalance wExtraction cexInput.balanceTransport ∧
    (checkOnceFetched wExtraction cexInput snapState).2.filter
      isEngineErr = [] ∧
    (checkOnceFetched wExtraction cexInput snapState).2.filter
      isOrderEvent = [] :=
  claim_fetch_error_isolated wExtraction cexInput snapState
    "TransportError: network timeout" rfl rfl

/-- The loop state at the instant `stopPolling` is called with the
inter-cycle sleep still having `r` milliseconds to run. -/
def stopDuringSleep (r : Nat) : LoopTimerState :=
  { phase := .sleeping r, polling := false, elapsed := 0 }

/-- Claim C5 counterexample: a stop issued at the start of a
default-interval sleep is observed only 15000 ms later — the loop is
not yet idle before the sleep completes, reaches idle with 15000 ms
elapsed, and 15000 ms is not within the ~10000 ms fetch-timeout
interval the claim allows. -/
theorem claim_stop_mid_sleep_cex :
    (loopRun DEFAULT_POLL_INTERVAL 2
      (stopDuringSleep DEFAULT_POLL_INTERVAL)).phase = LoopPhase.idle ∧
    (loopRun DEFAULT_POLL_INTERVAL 2
      (stopDuringSleep DEFAULT_POLL_INTERVAL)).elapsed = 15000 ∧
    ¬ (15000 ≤ DEFAULT_TIMEOUT) ∧
    (loopRun DEFAULT_POLL_INTERVAL 1
      (stopDuringSleep DEFAULT_POLL_INTERVAL)).phase ≠ LoopPhase.idle ∧
    (stopDuringSleep DEFAULT_POLL_INTERVAL).phase ≠ LoopPhase.idle := by
  refine ⟨rfl, by decide, by decide, by decide, by decide⟩

/-- Claim C5 (amended): a stop request issued while the loop is in its
inter-cycle sleep is observed only when the sleep runs to completion:
the loop reaches Idle exactly when the remaining sleep time `r` — up to
one full poll interval, default 15 s — has elapsed, and not before; the
sleep is not a cancelable suspension point. -/
theorem claim_stop_mid_sleep (interval r : Nat) (h : r ≤ interval) :
    loopRun interval 2 (stopDuringSleep r) =
      { phase := LoopPhase.idle, polling := false, elapsed := r } ∧
    (loopRun interval 1 (stopDuringSleep r)).phase ≠ LoopPhase.idle ∧
    (stopDuringSleep r).phase ≠ LoopPhase.idle ∧
    (loopRun interval 2 (stopDuringSleep r)).elapsed ≤ interval := by
  have h2 : loopRun interval 2 (stopDuringSleep r) =
      { phase := LoopPhase.idle, polling := false, elapsed := r } := by
    simp [loopRun, loopStep, stopDuringSleep]
  refine ⟨h2, by simp [loopRun, loopStep, stopDuringSleep], by
    simp [stopDuringSleep], ?_⟩
  rw [h2]
  exact h

/-- Claim C5 (amended) witness: the default 15 s sleep. -/
theorem claim_stop_mid_sleep_witness :
    loopRun DEFAULT_POLL_INTERVAL 2
        (stopDuringSleep DEFAULT_POLL_INTERVAL) =
      { phase := LoopPhase.idle, polling := false,
        elapsed := DEFAULT_POLL_INTERVAL } ∧
    (loopRun DEFAULT_POLL_INTERVAL 1
      (stopDuringSleep DEFAULT_POLL_INTERVAL)).phase ≠ LoopPhase.idle ∧
    (stopDuringSleep DEFAULT_POLL_INTERVAL).phase ≠ LoopPhase.idle ∧
    (loopRun DEFAULT_POLL_INTERVAL 2
      (stopDuringSleep DEFAULT_POLL_INTERVAL)).elapsed ≤
      DEFAULT_POLL_INTERVAL :=
  claim_stop_mid_sleep DEFAULT_POLL_INTERVAL DEFAULT_POLL_INTERVAL
    (by decide)

end FunPay
